import Mathlib

/- Verification of the batch record-analysis pipeline and the frontend pages of the
Ifeakandum AI medical-records system. The data types are embedded from
frontend/src/types/index.ts, and the frontend page logic from
frontend/src/pages/Reports.tsx and frontend/src/pages/Analysis.tsx. The backend
pipeline (validator/normalizer, orchestrator, HTTP endpoints) is not part of the
source tree, so those operations are modelled from the specification; each such
definition is marked with a doc comment starting with the words Modelled from the
spec. -/

namespace Ifeakandum

/-- Embedded from frontend/src/types/index.ts, interface MedicationRecommendation. -/
structure MedicationRecommendation where
  medication_name : String
  dosage : String
  frequency : String
  duration : Option String := none
  instructions : Option String := none
  contraindications : Option (List String) := none
  side_effects : Option (List String) := none
  confidence_score : Option Rat := none
deriving DecidableEq, Repr

/-- Embedded from frontend/src/types/index.ts, interface BatchStatus (the BatchJob of the
spec): batch identifier, total and processed record counts, status string, per-record
error strings, and creation/completion timestamps. -/
structure BatchStatus where
  batch_id : String
  total_records : Nat
  processed_records : Nat
  status : String
  errors : List String
  created_at : String
  completed_at : Option String := none
deriving DecidableEq, Repr

/-- Embedded from frontend/src/types/index.ts: one entry of the results list of interface
BatchResult (record id, conditions, medications, qualitative confidence). -/
structure RecordOutcome where
  record_id : String
  conditions : List String
  medications : List MedicationRecommendation
  confidence : String
deriving DecidableEq, Repr

/-- Embedded from frontend/src/types/index.ts, interface BatchResult (the BatchResultSet
of the spec). -/
structure BatchResult where
  batch_id : String
  total_records : Nat
  successful_analyses : Nat
  failed_analyses : Nat
  results : List RecordOutcome
deriving DecidableEq, Repr

/-- Embedded from frontend/src/types/index.ts, interface PatientInfo. -/
structure PatientInfo where
  patient_id : String
  name : String
  age : Nat
  gender : String
  weight : Option Rat := none
  height : Option Rat := none
  medical_history : Option (List String) := none
  allergies : Option (List String) := none
  current_medications : Option (List String) := none
deriving DecidableEq, Repr

/-- Embedded from frontend/src/types/index.ts, interface Symptoms. -/
structure Symptoms where
  primary_symptoms : List String
  secondary_symptoms : Option (List String) := none
  symptom_duration : Option String := none
  severity : Option String := none
deriving DecidableEq, Repr

/-- Embedded from frontend/src/types/index.ts, interface VitalSigns. -/
structure VitalSigns where
  temperature : Option Rat := none
  blood_pressure : Option String := none
  heart_rate : Option Nat := none
  respiratory_rate : Option Nat := none
  oxygen_saturation : Option Rat := none
deriving DecidableEq, Repr

/-- Embedded from frontend/src/types/index.ts, interface MedicalRecord. -/
structure MedicalRecord where
  patient_info : PatientInfo
  symptoms : Symptoms
  vital_signs : Option VitalSigns := none
  lab_results : Option (List (String × String)) := none
  additional_notes : Option String := none
deriving DecidableEq, Repr

/-- Modelled from the spec: the batch orchestrator processes records in chunks of 5
(spec section 4.3 together with WEARABLE_DATASET_GUIDE.md, Notes: the system processes
records in chunks of 5 to respect API rate limits). The orchestrator source
(src/services/batch_analysis.py) is not in the source tree. -/
def CHUNK_SIZE : Nat := 5

/-- Fuel-indexed splitting of a list into consecutive chunks of CHUNK_SIZE elements;
the fuel only serves structural termination and is irrelevant once at least the length
of the list. -/
def chunksAux {α : Type} : Nat → List α → List (List α)
  | 0, _ => []
  | _ + 1, [] => []
  | fuel + 1, x :: xs => (x :: xs).take CHUNK_SIZE :: chunksAux fuel ((x :: xs).drop CHUNK_SIZE)

/-- Modelled from the spec (section 4.3): partition the normalized-record list into
sequential chunks of CHUNK_SIZE records, the final chunk possibly smaller. -/
def chunks {α : Type} (l : List α) : List (List α) := chunksAux l.length l

theorem chunksAux_nil {α : Type} (fuel : Nat) : chunksAux fuel ([] : List α) = [] := by
  cases fuel <;> rfl

theorem chunksAux_fuel {α : Type} :
    ∀ (f1 f2 : Nat) (l : List α), l.length ≤ f1 → l.length ≤ f2 →
      chunksAux f1 l = chunksAux f2 l := by
  intro f1
  induction f1 with
  | zero =>
    intro f2 l h1 _
    have hl : l = [] := List.length_eq_zero.mp (Nat.le_zero.mp h1)
    subst hl
    rw [chunksAux_nil, chunksAux_nil]
  | succ f ih =>
    intro f2 l h1 h2
    match l with
    | [] => rw [chunksAux_nil, chunksAux_nil]
    | x :: xs =>
      match f2 with
      | 0 => exact absurd h2 (by simp)
      | g + 1 =>
        simp only [chunksAux]
        congr 1
        apply ih
        · rw [List.length_drop]
          simp only [List.length_cons] at h1 ⊢
          simp only [CHUNK_SIZE]
          omega
        · rw [List.length_drop]
          simp only [List.length_cons] at h2 ⊢
          simp only [CHUNK_SIZE]
          omega

theorem chunks_nil {α : Type} : chunks ([] : List α) = [] := rfl

theorem chunks_cons {α : Type} (x : α) (xs : List α) :
    chunks (x :: xs) = (x :: xs).take CHUNK_SIZE :: chunks ((x :: xs).drop CHUNK_SIZE) := by
  unfold chunks
  simp only [List.length_cons, chunksAux]
  congr 1
  apply chunksAux_fuel
  · rw [List.length_drop]
    simp only [List.length_cons, CHUNK_SIZE]
    omega
  · exact le_refl _

theorem chunksAux_flatten {α : Type} :
    ∀ (fuel : Nat) (l : List α), l.length ≤ fuel → (chunksAux fuel l).flatten = l := by
  intro fuel
  induction fuel with
  | zero =>
    intro l h
    have hl : l = [] := List.length_eq_zero.mp (Nat.le_zero.mp h)
    subst hl
    rfl
  | succ f ih =>
    intro l h
    match l with
    | [] => rfl
    | x :: xs =>
      simp only [chunksAux, List.flatten_cons]
      rw [ih _ (by rw [List.length_drop]; simp only [List.length_cons, CHUNK_SIZE] at h ⊢; omega)]
      exact List.take_append_drop CHUNK_SIZE (x :: xs)

theorem chunks_flatten {α : Type} (l : List α) : (chunks l).flatten = l :=
  chunksAux_flatten l.length l (le_refl _)

theorem chunksAux_map_length {α : Type} :
    ∀ (fuel : Nat) (l : List α), l.length ≤ fuel →
      (chunksAux fuel l).map List.length
        = List.replicate (l.length / CHUNK_SIZE) CHUNK_SIZE
          ++ (if l.length % CHUNK_SIZE = 0 then [] else [l.length % CHUNK_SIZE]) := by
  intro fuel
  induction fuel with
  | zero =>
    intro l h
    have hl : l = [] := List.length_eq_zero.mp (Nat.le_zero.mp h)
    subst hl
    simp [chunksAux]
  | succ f ih =>
    intro l h
    match l with
    | [] => simp [chunksAux]
    | x :: xs =>
      simp only [chunksAux, List.map_cons]
      rw [ih _ (by rw [List.length_drop]; simp only [List.length_cons, CHUNK_SIZE] at h ⊢; omega)]
      simp only [List.length_take, List.length_drop, List.length_cons, CHUNK_SIZE]
      rcases Nat.lt_trichotomy (xs.length + 1) 5 with hlt | heq | hgt
      · have e1 : min 5 (xs.length + 1) = xs.length + 1 := by omega
        have e2 : xs.length + 1 - 5 = 0 := by omega
        have e3 : (xs.length + 1) / 5 = 0 := by omega
        have e4 : (xs.length + 1) % 5 = xs.length + 1 := by omega
        rw [e1, e2, e3, e4]
        simp
      · have e1 : min 5 (xs.length + 1) = 5 := by omega
        have e2 : xs.length + 1 - 5 = 0 := by omega
        have e3 : (xs.length + 1) / 5 = 1 := by omega
        have e4 : (xs.length + 1) % 5 = 0 := by omega
        rw [e1, e2, e3, e4]
        simp [List.replicate]
      · have e1 : min 5 (xs.length + 1) = 5 := by omega
        have e2 : (xs.length + 1) / 5 = (xs.length + 1 - 5) / 5 + 1 := by omega
        have e3 : (xs.length + 1) % 5 = (xs.length + 1 - 5) % 5 := by omega
        rw [e1, e2, e3, List.replicate_succ]
        simp [List.cons_append]

theorem chunks_map_length {α : Type} (l : List α) :
    (chunks l).map List.length
      = List.replicate (l.length / CHUNK_SIZE) CHUNK_SIZE
        ++ (if l.length % CHUNK_SIZE = 0 then [] else [l.length % CHUNK_SIZE]) :=
  chunksAux_map_length l.length l (le_refl _)

theorem chunks_length {α : Type} (l : List α) :
    (chunks l).length = (l.length + CHUNK_SIZE - 1) / CHUNK_SIZE := by
  have h := congrArg List.length (chunks_map_length l)
  rw [List.length_map] at h
  rw [h, List.length_append, List.length_replicate]
  simp only [CHUNK_SIZE]
  by_cases h0 : l.length % 5 = 0
  · rw [if_pos h0]
    simp only [List.length_nil]
    omega
  · rw [if_neg h0]
    simp only [List.length_cons, List.length_nil]
    omega

theorem chunks_sum_length {α : Type} (l : List α) :
    ((chunks l).map List.length).sum = l.length := by
  rw [← List.length_flatten, chunks_flatten]

/-- The error side of one analyzer call, as recorded in the batch error list. -/
def errOf {ρ : Type} : Except String ρ → Option String
  | Except.error e => some e
  | Except.ok _ => none

/-- The success side of one analyzer call, as appended to the result accumulator. -/
def okOf {ρ : Type} : Except String ρ → Option ρ
  | Except.ok r => some r
  | Except.error _ => none

/-- The orchestrator-owned state of one batch: the queryable BatchStatus record together
with the accumulated per-record successes. -/
structure OrchState where
  job : BatchStatus
  results : List RecordOutcome
deriving DecidableEq, Repr

/-- Modelled from the spec (sections 3 and 6): the BatchJob created at upload time, with
processed_records zero, an empty error list and status processing; total_records is the
row count after validation. -/
def initState (id createdAt : String) (total : Nat) : OrchState :=
  { job := { batch_id := id, total_records := total, processed_records := 0,
             status := "processing", errors := [], created_at := createdAt,
             completed_at := none },
    results := [] }

/-- Modelled from the spec (section 4.3): settle one chunk: invoke the analyzer on every
record of the chunk, append successes to the result accumulator and failures to the error
list, then advance processed_records by the chunk size regardless of per-item success or
failure. The orchestrator source (src/services/batch_analysis.py) is not in the tree. -/
def processChunk {R : Type} (analyze : R → Except String RecordOutcome)
    (st : OrchState) (chunk : List R) : OrchState :=
  let outcomes := chunk.map analyze
  { job := { st.job with
      processed_records := st.job.processed_records + chunk.length,
      errors := st.job.errors ++ outcomes.filterMap errOf },
    results := st.results ++ outcomes.filterMap okOf }

/-- Modelled from the spec (section 4.3): after the last chunk, set the status to
completed and record the completion timestamp; a batch with zero successes is still
completed, not failed. -/
def completeState (completedAt : String) (st : OrchState) : OrchState :=
  { st with job := { st.job with status := "completed", completed_at := some completedAt } }

/-- The terminal state of a normally orchestrated batch: every chunk settled in order,
then the completion transition applied. -/
def finalState {R : Type} (analyze : R → Except String RecordOutcome)
    (id t0 t1 : String) (records : List R) : OrchState :=
  completeState t1
    (List.foldl (processChunk analyze) (initState id t0 records.length) (chunks records))

/-- Modelled from the spec (sections 4.3 and 5): the sequence of observable states of one
batch over time: the state at upload, the state after each chunk settles, and the
terminal completed state. -/
def batchTrace {R : Type} (analyze : R → Except String RecordOutcome)
    (id t0 t1 : String) (records : List R) : List OrchState :=
  List.scanl (processChunk analyze) (initState id t0 records.length) (chunks records)
    ++ [finalState analyze id t0 t1 records]

theorem batchTrace_eq {R : Type} (analyze : R → Except String RecordOutcome)
    (id t0 t1 : String) (records : List R) :
    batchTrace analyze id t0 t1 records
      = List.scanl (processChunk analyze) (initState id t0 records.length) (chunks records)
        ++ [finalState analyze id t0 t1 records] := rfl

/-- Modelled from the spec (section 7, SubmissionFault): an input file that cannot be
read or parsed transitions the batch directly to failed with zero processed records,
before any processing starts; no row was enumerated, so the row count after validation
is zero. -/
def submissionFaultJob (id t0 reason : String) : BatchStatus :=
  { batch_id := id, total_records := 0, processed_records := 0, status := "failed",
    errors := [reason], created_at := t0, completed_at := some t0 }

/-- Modelled from the spec (sections 3 and 4.4): the BatchResultSet assembled once the
batch reaches completed: total count, success and failure counts, and the ordered
per-record outcomes. -/
def batchResultOf (st : OrchState) : BatchResult :=
  { batch_id := st.job.batch_id,
    total_records := st.job.total_records,
    successful_analyses := st.results.length,
    failed_analyses := st.job.errors.length,
    results := st.results }

/-- Modelled from the spec (section 5): a status poll at a given instant observes the
trace state current at that instant; every poll from the terminal transition onwards
observes the final state. -/
def observedJob {R : Type} (analyze : R → Except String RecordOutcome)
    (id t0 t1 : String) (records : List R) (time : Nat) : Option BatchStatus :=
  let tr := batchTrace analyze id t0 t1 records
  (tr[min time (tr.length - 1)]?).map (fun s => s.job)

theorem processChunk_processed {R : Type} (analyze : R → Except String RecordOutcome)
    (st : OrchState) (c : List R) :
    (processChunk analyze st c).job.processed_records
      = st.job.processed_records + c.length := rfl

theorem foldl_processed {R : Type} (analyze : R → Except String RecordOutcome) :
    ∀ (cs : List (List R)) (st : OrchState),
      (List.foldl (processChunk analyze) st cs).job.processed_records
        = st.job.processed_records + (cs.map List.length).sum := by
  intro cs
  induction cs with
  | nil => intro st; simp
  | cons c cs ih =>
    intro st
    simp only [List.foldl_cons, List.map_cons, List.sum_cons]
    rw [ih, processChunk_processed]
    omega

theorem foldl_status {R : Type} (analyze : R → Except String RecordOutcome) :
    ∀ (cs : List (List R)) (st : OrchState),
      (List.foldl (processChunk analyze) st cs).job.status = st.job.status := by
  intro cs
  induction cs with
  | nil => intro st; rfl
  | cons c cs ih => intro st; rw [List.foldl_cons, ih]; rfl

theorem foldl_total {R : Type} (analyze : R → Except String RecordOutcome) :
    ∀ (cs : List (List R)) (st : OrchState),
      (List.foldl (processChunk analyze) st cs).job.total_records = st.job.total_records := by
  intro cs
  induction cs with
  | nil => intro st; rfl
  | cons c cs ih => intro st; rw [List.foldl_cons, ih]; rfl

theorem scanl_map_processed {R : Type} (analyze : R → Except String RecordOutcome) :
    ∀ (cs : List (List R)) (st : OrchState),
      (List.scanl (processChunk analyze) st cs).map (fun s => s.job.processed_records)
        = List.scanl (fun a (c : List R) => a + c.length) st.job.processed_records cs := by
  intro cs
  induction cs with
  | nil => intro st; simp [List.scanl_nil]
  | cons c cs ih =>
    intro st
    rw [List.scanl_cons, List.scanl_cons, List.map_append, ih (processChunk analyze st c),
      processChunk_processed]
    rfl

theorem scanl_status_total {R : Type} (analyze : R → Except String RecordOutcome) :
    ∀ (cs : List (List R)) (st : OrchState),
      ∀ s ∈ List.scanl (processChunk analyze) st cs,
        s.job.status = st.job.status ∧ s.job.total_records = st.job.total_records := by
  intro cs
  induction cs with
  | nil =>
    intro st s hs
    rw [List.scanl_nil] at hs
    simp only [List.mem_singleton] at hs
    subst hs
    exact ⟨rfl, rfl⟩
  | cons c cs ih =>
    intro st s hs
    rw [List.scanl_cons] at hs
    rcases List.mem_append.mp hs with h | h
    · simp only [List.mem_singleton] at h
      subst h
      exact ⟨rfl, rfl⟩
    · exact ih (processChunk analyze st c) s h

theorem scanl_add_bounds {R : Type} :
    ∀ (cs : List (List R)) (b : Nat),
      ∀ x ∈ List.scanl (fun a (c : List R) => a + c.length) b cs,
        b ≤ x ∧ x ≤ b + (cs.map List.length).sum := by
  intro cs
  induction cs with
  | nil =>
    intro b x hx
    rw [List.scanl_nil] at hx
    simp only [List.mem_singleton] at hx
    subst hx
    simp
  | cons c cs ih =>
    intro b x hx
    rw [List.scanl_cons] at hx
    rcases List.mem_append.mp hx with h | h
    · simp only [List.mem_singleton] at h
      subst h
      simp
    · rcases ih (b + c.length) x h with ⟨h1, h2⟩
      simp only [List.map_cons, List.sum_cons]
      omega

theorem scanl_add_pairwise {R : Type} :
    ∀ (cs : List (List R)) (b : Nat),
      (List.scanl (fun a (c : List R) => a + c.length) b cs).Pairwise (· ≤ ·) := by
  intro cs
  induction cs with
  | nil => intro b; rw [List.scanl_nil]; simp
  | cons c cs ih =>
    intro b
    rw [List.scanl_cons, List.pairwise_append]
    refine ⟨by simp, ih _, ?_⟩
    intro a ha y hy
    simp only [List.mem_singleton] at ha
    subst ha
    have := (scanl_add_bounds cs (a + c.length) y hy).1
    omega

theorem scanl_add_eq_scanl_map {R : Type} :
    ∀ (cs : List (List R)) (b : Nat),
      List.scanl (fun a (c : List R) => a + c.length) b cs
        = List.scanl (· + ·) b (cs.map List.length) := by
  intro cs
  induction cs with
  | nil => intro b; rfl
  | cons c cs ih =>
    intro b
    rw [List.map_cons, List.scanl_cons, List.scanl_cons, ih]

theorem getElem?_append_singleton {α : Type} (l : List α) (a : α) :
    (l ++ [a])[l.length]? = some a := by simp

theorem finalState_processed {R : Type} (analyze : R → Except String RecordOutcome)
    (id t0 t1 : String) (records : List R) :
    (finalState analyze id t0 t1 records).job.processed_records = records.length := by
  show (List.foldl (processChunk analyze) (initState id t0 records.length)
      (chunks records)).job.processed_records = records.length
  rw [foldl_processed, chunks_sum_length]
  simp [initState]

theorem finalState_total {R : Type} (analyze : R → Except String RecordOutcome)
    (id t0 t1 : String) (records : List R) :
    (finalState analyze id t0 t1 records).job.total_records = records.length := by
  show (List.foldl (processChunk analyze) (initState id t0 records.length)
      (chunks records)).job.total_records = records.length
  rw [foldl_total]
  rfl

theorem finalState_status {R : Type} (analyze : R → Except String RecordOutcome)
    (id t0 t1 : String) (records : List R) :
    (finalState analyze id t0 t1 records).job.status = "completed" := rfl

theorem filterMap_all_fail {R : Type} (analyze : R → Except String RecordOutcome) :
    ∀ (c : List R), (∀ r ∈ c, ∃ e, analyze r = Except.error e) →
      ((c.map analyze).filterMap errOf).length = c.length
      ∧ (c.map analyze).filterMap okOf = [] := by
  intro c
  induction c with
  | nil => intro _; exact ⟨rfl, rfl⟩
  | cons r c ih =>
    intro h
    obtain ⟨e, he⟩ := h r (List.mem_cons_self r c)
    have hrest := ih (fun x hx => h x (List.mem_cons_of_mem r hx))
    have hcons : (List.map analyze (r :: c)).filterMap errOf
        = e :: (List.map analyze c).filterMap errOf := by
      rw [List.map_cons, he]
      exact List.filterMap_cons_some rfl
    have hcons2 : (List.map analyze (r :: c)).filterMap okOf
        = (List.map analyze c).filterMap okOf := by
      rw [List.map_cons, he]
      exact List.filterMap_cons_none rfl
    constructor
    · rw [hcons, List.length_cons, hrest.1]
      rfl
    · rw [hcons2, hrest.2]

theorem foldl_all_fail {R : Type} (analyze : R → Except String RecordOutcome) :
    ∀ (cs : List (List R)) (st : OrchState),
      (∀ c ∈ cs, ∀ r ∈ c, ∃ e, analyze r = Except.error e) →
        (List.foldl (processChunk analyze) st cs).job.errors.length
            = st.job.errors.length + (cs.map List.length).sum
        ∧ (List.foldl (processChunk analyze) st cs).results = st.results := by
  intro cs
  induction cs with
  | nil => intro st h; exact ⟨by simp, rfl⟩
  | cons c cs ih =>
    intro st h
    have hc := filterMap_all_fail analyze c (h c (List.mem_cons_self c cs))
    have hrest := ih (processChunk analyze st c) (fun d hd => h d (List.mem_cons_of_mem c hd))
    constructor
    · rw [List.foldl_cons, hrest.1]
      have hpc : (processChunk analyze st c).job.errors.length
          = st.job.errors.length + c.length := by
        show (st.job.errors ++ (c.map analyze).filterMap errOf).length
            = st.job.errors.length + c.length
        rw [List.length_append, hc.1]
      rw [hpc]
      simp only [List.map_cons, List.sum_cons]
      omega
    · rw [List.foldl_cons, hrest.2]
      show st.results ++ (c.map analyze).filterMap okOf = st.results
      rw [hc.2, List.append_nil]

/-- Claim C1: along every observable trace of a batch, processed_records is monotonically
non-decreasing and never exceeds total_records, and every state whose status is terminal
(completed or failed) has processed_records equal to total_records; a submission-fault
batch satisfies the same terminal equation. -/
theorem processed_records_invariant {R : Type} (analyze : R → Except String RecordOutcome)
    (id t0 t1 reason : String) (records : List R) :
    ((batchTrace analyze id t0 t1 records).map
        (fun s => s.job.processed_records)).Pairwise (· ≤ ·)
    ∧ (∀ s ∈ batchTrace analyze id t0 t1 records,
        s.job.processed_records ≤ s.job.total_records)
    ∧ (∀ s ∈ batchTrace analyze id t0 t1 records,
        (s.job.status = "completed" ∨ s.job.status = "failed") →
          s.job.processed_records = s.job.total_records)
    ∧ (submissionFaultJob id t0 reason).processed_records
        = (submissionFaultJob id t0 reason).total_records := by
  have hmapS : (List.scanl (processChunk analyze) (initState id t0 records.length)
      (chunks records)).map (fun s => s.job.processed_records)
      = List.scanl (fun a (c : List R) => a + c.length) 0 (chunks records) := by
    rw [scanl_map_processed]
    rfl
  refine ⟨?_, ?_, ?_, rfl⟩
  · rw [batchTrace_eq, List.map_append, List.pairwise_append]
    refine ⟨?_, by simp, ?_⟩
    · rw [hmapS]
      exact scanl_add_pairwise (chunks records) 0
    · intro x hx y hy
      rw [hmapS] at hx
      simp only [List.map_cons, List.map_nil, List.mem_singleton] at hy
      subst hy
      have hb := (scanl_add_bounds (chunks records) 0 x hx).2
      rw [chunks_sum_length] at hb
      rw [finalState_processed]
      omega
  · intro s hs
    rw [batchTrace_eq] at hs
    rcases List.mem_append.mp hs with h | h
    · have hst := (scanl_status_total analyze (chunks records)
        (initState id t0 records.length) s h).2
      have hx : s.job.processed_records
          ∈ (List.scanl (processChunk analyze) (initState id t0 records.length)
              (chunks records)).map (fun s => s.job.processed_records) :=
        List.mem_map_of_mem _ h
      rw [hmapS] at hx
      have hb := (scanl_add_bounds (chunks records) 0 _ hx).2
      rw [chunks_sum_length] at hb
      have htot : (initState id t0 records.length).job.total_records = records.length := rfl
      rw [hst, htot]
      omega
    · simp only [List.mem_singleton] at h
      subst h
      rw [finalState_processed, finalState_total]
  · intro s hs hterm
    rw [batchTrace_eq] at hs
    rcases List.mem_append.mp hs with h | h
    · have hproc : s.job.status = "processing" :=
        (scanl_status_total analyze (chunks records)
          (initState id t0 records.length) s h).1
      rw [hproc] at hterm
      rcases hterm with hc | hc <;> exact absurd hc (by decide)
    · simp only [List.mem_singleton] at h
      subst h
      rw [finalState_processed, finalState_total]

/-- An analyzer whose every call fails, standing in for an unreachable provider. -/
def demoAnalyzer : Nat → Except String RecordOutcome :=
  fun _ => Except.error "provider unreachable"

/-- Concrete check of the terminal conjunct of the C1 theorem on a three-record batch. -/
theorem processed_records_invariant_witness :
    (finalState demoAnalyzer "batch-1" "t0" "t1" [0, 1, 2]).job.processed_records
      = (finalState demoAnalyzer "batch-1" "t0" "t1" [0, 1, 2]).job.total_records := by
  refine (processed_records_invariant demoAnalyzer "batch-1" "t0" "t1" "boom" [0, 1, 2]).2.2.1
    (finalState demoAnalyzer "batch-1" "t0" "t1" [0, 1, 2]) ?_ (Or.inl rfl)
  rw [batchTrace_eq]
  exact List.mem_append.mpr (Or.inr (List.mem_singleton.mpr rfl))

/-- Claim C2: a batch in which every analysis fails still reaches status completed (never
failed), with failed_analyses equal to the total record count and zero successes; the
failed status arises only from a submission-time fault, before any record is processed. -/
theorem all_failed_batch_completes {R : Type} (analyze : R → Except String RecordOutcome)
    (id t0 t1 reason : String) (records : List R)
    (hfail : ∀ r ∈ records, ∃ e, analyze r = Except.error e) :
    (finalState analyze id t0 t1 records).job.status = "completed"
    ∧ (batchResultOf (finalState analyze id t0 t1 records)).failed_analyses = records.length
    ∧ (batchResultOf (finalState analyze id t0 t1 records)).successful_analyses = 0
    ∧ (∀ s ∈ batchTrace analyze id t0 t1 records, s.job.status ≠ "failed")
    ∧ (submissionFaultJob id t0 reason).status = "failed"
    ∧ (submissionFaultJob id t0 reason).processed_records = 0 := by
  have hchunks : ∀ c ∈ chunks records, ∀ r ∈ c, ∃ e, analyze r = Except.error e := by
    intro c hc r hr
    apply hfail
    have hmem : r ∈ (chunks records).flatten := List.mem_flatten.mpr ⟨c, hc, hr⟩
    rwa [chunks_flatten] at hmem
  have hff := foldl_all_fail analyze (chunks records) (initState id t0 records.length) hchunks
  refine ⟨rfl, ?_, ?_, ?_, rfl, rfl⟩
  · show (List.foldl (processChunk analyze) (initState id t0 records.length)
        (chunks records)).job.errors.length = records.length
    rw [hff.1, chunks_sum_length]
    simp [initState]
  · show (List.foldl (processChunk analyze) (initState id t0 records.length)
        (chunks records)).results.length = 0
    rw [hff.2]
    rfl
  · intro s hs
    rw [batchTrace_eq] at hs
    rcases List.mem_append.mp hs with h | h
    · have hst : s.job.status = "processing" :=
        (scanl_status_total analyze (chunks records)
          (initState id t0 records.length) s h).1
      rw [hst]
      decide
    · simp only [List.mem_singleton] at h
      subst h
      rw [finalState_status]
      decide

/-- Concrete check of the C2 theorem on a three-record batch whose every analysis
fails. -/
theorem all_failed_batch_completes_witness :
    (finalState demoAnalyzer "batch-1" "t0" "t1" [0, 1, 2]).job.status = "completed"
    ∧ (batchResultOf (finalState demoAnalyzer "batch-1" "t0" "t1" [0, 1, 2])).failed_analyses
        = 3 := by
  have h := all_failed_batch_completes demoAnalyzer "batch-1" "t0" "t1" "boom" [0, 1, 2]
    (fun r _ => ⟨"provider unreachable", rfl⟩)
  exact ⟨h.1, h.2.1⟩

/-- Claim C3: the orchestrator partitions n records into the round-up of n divided by 5
sequential chunks that preserve the record order, all of size 5 except a smaller final
remainder; settling a chunk advances processed_records by exactly the chunk size
regardless of per-item outcome; for 12 records the chunk sizes are 5, 5, 2 and
processed_records is observed at 0, 5, 10, 12 over time, staying 12 at the terminal
state. -/
theorem chunking_spec {R : Type} (analyze : R → Except String RecordOutcome)
    (id t0 t1 : String) (records : List R) :
    (chunks records).length = (records.length + CHUNK_SIZE - 1) / CHUNK_SIZE
    ∧ (chunks records).flatten = records
    ∧ (chunks records).map List.length
        = List.replicate (records.length / CHUNK_SIZE) CHUNK_SIZE
          ++ (if records.length % CHUNK_SIZE = 0 then []
              else [records.length % CHUNK_SIZE])
    ∧ (∀ (st : OrchState) (c : List R),
        (processChunk analyze st c).job.processed_records
          = st.job.processed_records + c.length)
    ∧ (records.length = 12 → (chunks records).map List.length = [5, 5, 2])
    ∧ (records.length = 12 →
        (batchTrace analyze id t0 t1 records).map (fun s => s.job.processed_records)
          = [0, 5, 10, 12, 12]) := by
  refine ⟨chunks_length records, chunks_flatten records, chunks_map_length records,
    fun st c => processChunk_processed analyze st c, ?_, ?_⟩
  · intro h12
    rw [chunks_map_length, h12]
    decide
  · intro h12
    rw [batchTrace_eq, List.map_append]
    have hmapS : (List.scanl (processChunk analyze) (initState id t0 records.length)
        (chunks records)).map (fun s => s.job.processed_records)
        = List.scanl (· + ·) 0 ((chunks records).map List.length) := by
      rw [scanl_map_processed, scanl_add_eq_scanl_map]
      rfl
    have hF : (finalState analyze id t0 t1 records).job.processed_records = 12 := by
      rw [finalState_processed, h12]
    rw [hmapS, chunks_map_length, h12]
    simp only [List.map_cons, List.map_nil, hF]
    decide

/-- Concrete check of the 12-record conjuncts of the C3 theorem. -/
theorem chunking_spec_witness :
    (chunks (List.range 12)).map List.length = [5, 5, 2]
    ∧ (batchTrace demoAnalyzer "batch-1" "t0" "t1" (List.range 12)).map
        (fun s => s.job.processed_records) = [0, 5, 10, 12, 12] := by
  have h := chunking_spec demoAnalyzer "batch-1" "t0" "t1" (List.range 12)
  exact ⟨h.2.2.2.2.1 rfl, h.2.2.2.2.2 rfl⟩

/-- Claim C7: from the terminal transition onwards every status poll observes the
identical BatchStatus value, equal to the final completed job: no field of the BatchJob
is mutated after the terminal transition. -/
theorem status_idempotent_after_terminal {R : Type} (analyze : R → Except String RecordOutcome)
    (id t0 t1 : String) (records : List R) (time1 time2 : Nat)
    (h1 : (batchTrace analyze id t0 t1 records).length - 1 ≤ time1)
    (h2 : (batchTrace analyze id t0 t1 records).length - 1 ≤ time2) :
    observedJob analyze id t0 t1 records time1 = observedJob analyze id t0 t1 records time2
    ∧ observedJob analyze id t0 t1 records time1
        = some (finalState analyze id t0 t1 records).job
    ∧ (finalState analyze id t0 t1 records).job.status = "completed" := by
  have hobs : ∀ t : Nat, (batchTrace analyze id t0 t1 records).length - 1 ≤ t →
      observedJob analyze id t0 t1 records t
        = some (finalState analyze id t0 t1 records).job := by
    intro t ht
    show ((batchTrace analyze id t0 t1 records)[min t
        ((batchTrace analyze id t0 t1 records).length - 1)]?).map (fun s => s.job)
      = some (finalState analyze id t0 t1 records).job
    rw [Nat.min_eq_right ht]
    have hidx : (batchTrace analyze id t0 t1 records).length - 1
        = (List.scanl (processChunk analyze) (initState id t0 records.length)
            (chunks records)).length := by
      rw [batchTrace_eq, List.length_append]
      simp
    rw [hidx, batchTrace_eq, getElem?_append_singleton]
    rfl
  exact ⟨(hobs time1 h1).trans (hobs time2 h2).symm, hobs time1 h1, rfl⟩

/-- Concrete check of the C7 theorem: polls at instants 5 and 50, both past the end of
the three-record demo trace, observe identical results. -/
theorem status_idempotent_witness :
    observedJob demoAnalyzer "batch-1" "t0" "t1" [0, 1, 2] 5
      = observedJob demoAnalyzer "batch-1" "t0" "t1" [0, 1, 2] 50 :=
  (status_idempotent_after_terminal demoAnalyzer "batch-1" "t0" "t1" [0, 1, 2] 5 50
    (by decide) (by decide)).1

/-- A valid wearable-device row after schema detection and numeric coercion (the valid
device-schema rows of the spec): the alert flags record whether the corresponding alert
column is flagged abnormal; an absent optional column counts as not flagged. Columns per
WEARABLE_DATASET_GUIDE.md. -/
structure WearableRow where
  patient_number : String
  heart_rate : Nat
  spo2_level : Rat
  systolic : Nat
  diastolic : Nat
  temperature : Rat
  predicted_disease : Option String := none
  heart_rate_alert : Bool := false
  spo2_alert : Bool := false
  bp_alert : Bool := false
  temperature_alert : Bool := false
  fall_detection : Option String := none
  data_accuracy : Option Nat := none
deriving DecidableEq, Repr

/-- Modelled from the spec (section 4.1 device-mapping policy, mirrored by the mapping
table of WEARABLE_DATASET_GUIDE.md): convert one valid wearable row into a
MedicalRecord. The normalizer source (src/services/batch_analysis.py) is not in the
source tree. Blood pressure combines the systolic and diastolic columns into one
slash-separated string; the severity is severe when any alert column is flagged
abnormal and moderate otherwise; the secondary symptoms list one entry per flagged
alert in the fixed order heart rate, SpO2, blood pressure, temperature; missing
demographics default to age 45, gender Unknown and a name derived from the patient
number; fall detection and data accuracy are appended to the notes as plain text. -/
def normalize (row : WearableRow) : MedicalRecord :=
  let anyAlert := row.heart_rate_alert || row.spo2_alert || row.bp_alert
    || row.temperature_alert
  let secondary :=
    (if row.heart_rate_alert then ["Abnormal heart rate"] else [])
      ++ (if row.spo2_alert then ["Abnormal SpO2 level"] else [])
      ++ (if row.bp_alert then ["Abnormal blood pressure"] else [])
      ++ (if row.temperature_alert then ["Abnormal temperature"] else [])
  { patient_info :=
      { patient_id := row.patient_number,
        name := "Patient_" ++ row.patient_number,
        age := 45,
        gender := "Unknown" },
    symptoms :=
      { primary_symptoms := [row.predicted_disease.getD "Unknown condition"],
        secondary_symptoms := some secondary,
        severity := some (if anyAlert then "severe" else "moderate") },
    vital_signs := some
      { temperature := some row.temperature,
        blood_pressure := some (toString row.systolic ++ "/" ++ toString row.diastolic),
        heart_rate := some row.heart_rate,
        oxygen_saturation := some row.spo2_level },
    additional_notes := some
      ((match row.fall_detection with
        | some f => "Fall detection: " ++ f ++ ". "
        | none => "")
        ++ (match row.data_accuracy with
            | some a => "Data accuracy: " ++ toString a ++ " percent"
            | none => "")) }

/-- Claim C4: for every valid device-schema row, normalize yields a blood_pressure that
is exactly the systolic and diastolic columns joined by a slash, and a severity that is
severe exactly when at least one alert column is flagged abnormal and moderate exactly
otherwise. -/
theorem normalize_bp_severity (row : WearableRow) :
    ((normalize row).vital_signs.bind (fun v => v.blood_pressure))
        = some (toString row.systolic ++ "/" ++ toString row.diastolic)
    ∧ ((normalize row).symptoms.severity = some "severe"
        ↔ (row.heart_rate_alert || row.spo2_alert || row.bp_alert
            || row.temperature_alert) = true)
    ∧ ((normalize row).symptoms.severity = some "moderate"
        ↔ (row.heart_rate_alert || row.spo2_alert || row.bp_alert
            || row.temperature_alert) = false) := by
  have hsev : (normalize row).symptoms.severity
      = some (if row.heart_rate_alert || row.spo2_alert || row.bp_alert
          || row.temperature_alert then "severe" else "moderate") := rfl
  refine ⟨rfl, ?_, ?_⟩
  · rw [hsev]
    cases hb : row.heart_rate_alert || row.spo2_alert || row.bp_alert
        || row.temperature_alert <;> decide
  · rw [hsev]
    cases hb : row.heart_rate_alert || row.spo2_alert || row.bp_alert
        || row.temperature_alert <;> decide

/-- The wearable row of the worked example in WEARABLE_DATASET_GUIDE.md. -/
def demoRow : WearableRow :=
  { patient_number := "P-77", heart_rate := 105, spo2_level := 97, systolic := 177,
    diastolic := 104, temperature := 37, predicted_disease := some "Heart Disease",
    heart_rate_alert := true }

/-- Concrete check of the C4 theorem on the worked example row. -/
theorem normalize_bp_severity_witness :
    ((normalize demoRow).vital_signs.bind (fun v => v.blood_pressure)) = some "177/104"
    ∧ (normalize demoRow).symptoms.severity = some "severe" := by
  have h := normalize_bp_severity demoRow
  exact ⟨h.1, h.2.1.mpr rfl⟩

/-- Embedded from frontend/src/pages/Reports.tsx (BatchUpload resultsQuery): the
batch-results request is enabled exactly when polled status data exists and its status
field equals completed. -/
def resultsQueryEnabled (statusData : Option BatchStatus) : Bool :=
  match statusData with
  | some s => s.status == "completed"
  | none => false

/-- Modelled from the spec (sections 6, 7 and 8): the results operation is valid only
once the batch status is completed; a request made earlier returns a not-ready error
condition, never a partial or empty success. The endpoint source (src/main.py) is not in
the source tree. -/
def resultsEndpoint (job : BatchStatus) (resultSet : BatchResult) : Except String BatchResult :=
  if job.status = "completed" then Except.ok resultSet else Except.error "Batch not ready"

/-- Claim C5: the results operation succeeds exactly when the batch status is completed;
while the status is processing it returns the not-ready error, never a partial or empty
success; and the client issues the batch-results request exactly when the polled status
equals completed. -/
theorem results_only_when_completed (job : BatchStatus) (resultSet : BatchResult) :
    ((∃ r, resultsEndpoint job resultSet = Except.ok r) ↔ job.status = "completed")
    ∧ (job.status = "processing" →
        resultsEndpoint job resultSet = Except.error "Batch not ready")
    ∧ (∀ d : Option BatchStatus,
        resultsQueryEnabled d = true ↔ ∃ s, d = some s ∧ s.status = "completed") := by
  refine ⟨?_, ?_, ?_⟩
  · constructor
    · rintro ⟨r, hr⟩
      by_cases h : job.status = "completed"
      · exact h
      · rw [resultsEndpoint, if_neg h] at hr
        exact absurd hr (by simp)
    · intro h
      exact ⟨resultSet, by rw [resultsEndpoint, if_pos h]⟩
  · intro h
    have hne : job.status ≠ "completed" := by rw [h]; decide
    rw [resultsEndpoint, if_neg hne]
  · intro d
    match d with
    | none => simp [resultsQueryEnabled]
    | some s =>
      simp only [resultsQueryEnabled, beq_iff_eq, Option.some.injEq]
      constructor
      · intro h
        exact ⟨s, rfl, h⟩
      · rintro ⟨t, ht, hs⟩
        subst ht
        exact hs

/-- A BatchStatus mid-run, as observed by the polling client. -/
def processingJob : BatchStatus :=
  { batch_id := "batch-1", total_records := 3, processed_records := 1,
    status := "processing", errors := [], created_at := "t0", completed_at := none }

/-- A concrete empty BatchResult value. -/
def emptyBatchResult : BatchResult :=
  { batch_id := "batch-1", total_records := 0, successful_analyses := 0,
    failed_analyses := 0, results := [] }

/-- Concrete check of the C5 theorem: a results request against a processing batch gets
the not-ready error. -/
theorem results_only_when_completed_witness :
    resultsEndpoint processingJob emptyBatchResult = Except.error "Batch not ready" :=
  (results_only_when_completed processingJob emptyBatchResult).2.1 rfl

/-- Embedded from frontend/src/pages/Reports.tsx (BatchUpload statusQuery
refetchInterval): the callback returns false when the last returned status is completed
or failed and 2000 milliseconds otherwise; none models false (stop polling) and some n
models polling every n milliseconds. -/
def refetchInterval (data : Option BatchStatus) : Option Nat :=
  let status := data.map (fun s => s.status)
  if status = some "completed" ∨ status = some "failed" then none else some 2000

/-- Claim C6: the polling client re-issues the status request on a fixed 2000
millisecond interval for as long as the returned status is non-terminal, and stops
polling exactly when the returned status is completed or failed. -/
theorem refetch_interval_spec (d : Option BatchStatus) :
    (refetchInterval d = none
      ↔ d.map (fun s => s.status) = some "completed"
        ∨ d.map (fun s => s.status) = some "failed")
    ∧ (∀ s : BatchStatus, d = some s → s.status ≠ "completed" → s.status ≠ "failed" →
        refetchInterval d = some 2000)
    ∧ (∀ s : BatchStatus, d = some s → (s.status = "completed" ∨ s.status = "failed") →
        refetchInterval d = none) := by
  refine ⟨?_, ?_, ?_⟩
  · by_cases h : d.map (fun s => s.status) = some "completed"
        ∨ d.map (fun s => s.status) = some "failed"
    · rw [refetchInterval, if_pos h]
      exact iff_of_true rfl h
    · rw [refetchInterval, if_neg h]
      exact iff_of_false (by simp) h
  · intro s hs h1 h2
    subst hs
    have hne : ¬ ((some s : Option BatchStatus).map (fun s => s.status) = some "completed"
        ∨ (some s : Option BatchStatus).map (fun s => s.status) = some "failed") := by
      rintro (h | h) <;> simp only [Option.map_some', Option.some.injEq] at h
      · exact h1 h
      · exact h2 h
    rw [refetchInterval, if_neg hne]
  · intro s hs hterm
    subst hs
    have hyes : (some s : Option BatchStatus).map (fun s => s.status) = some "completed"
        ∨ (some s : Option BatchStatus).map (fun s => s.status) = some "failed" := by
      rcases hterm with h | h
      · exact Or.inl (by rw [Option.map_some', h])
      · exact Or.inr (by rw [Option.map_some', h])
    rw [refetchInterval, if_pos hyes]

/-- Concrete check of the C6 theorem: a processing status keeps the 2000 millisecond
polling interval. -/
theorem refetch_interval_witness : refetchInterval (some processingJob) = some 2000 :=
  (refetch_interval_spec (some processingJob)).2.1 processingJob rfl (by decide) (by decide)

/-- Kind of an IEEE-754 double relevant here: finite, positive infinity, or NaN. -/
inductive JsNumKind where
  | finite
  | posInf
  | nan
deriving DecidableEq, Repr

/-- Kind of the IEEE-754 quotient of two nonnegative counters: dividing by zero gives
NaN when the numerator is also zero and positive infinity otherwise; a nonzero
denominator gives a finite quotient. -/
def natDivKind (num den : Nat) : JsNumKind :=
  if den = 0 then (if num = 0 then JsNumKind.nan else JsNumKind.posInf)
  else JsNumKind.finite

/-- Multiplying by the constant 100 preserves NaN, preserves positive infinity, and
keeps the finite quotient of two bounded counters finite. -/
def mulHundredKind : JsNumKind → JsNumKind
  | JsNumKind.nan => JsNumKind.nan
  | JsNumKind.posInf => JsNumKind.posInf
  | JsNumKind.finite => JsNumKind.finite

/-- Embedded from frontend/src/pages/Reports.tsx (BatchUpload progress bar): the style
width is processed_records divided by total_records, times 100, with no guard against
total_records being zero. -/
def progressBarWidthKind (s : BatchStatus) : JsNumKind :=
  mulHundredKind (natDivKind s.processed_records s.total_records)

/-- Claim C8: the progress-bar width computation has no guard against a zero
total_records, so any BatchStatus with total_records zero yields a non-finite width:
NaN when processed_records is also zero, positive infinity otherwise. -/
theorem progress_width_unguarded_zero_total (s : BatchStatus)
    (h : s.total_records = 0) :
    progressBarWidthKind s ≠ JsNumKind.finite
    ∧ (s.processed_records = 0 → progressBarWidthKind s = JsNumKind.nan)
    ∧ (0 < s.processed_records → progressBarWidthKind s = JsNumKind.posInf) := by
  rw [progressBarWidthKind, natDivKind, h, if_pos rfl]
  by_cases hp : s.processed_records = 0
  · rw [if_pos hp]
    refine ⟨by decide, fun _ => rfl, fun hlt => absurd hp (by omega)⟩
  · rw [if_neg hp]
    refine ⟨by decide, fun h0 => absurd h0 hp, fun _ => rfl⟩

/-- A terminal BatchStatus over an empty accepted input: zero totals. -/
def zeroTotalJob : BatchStatus :=
  { batch_id := "batch-0", total_records := 0, processed_records := 0,
    status := "completed", errors := [], created_at := "t0",
    completed_at := some "t0" }

/-- Concrete check of the C8 theorem: the zero-total batch renders a NaN width. -/
theorem progress_width_unguarded_witness :
    progressBarWidthKind zeroTotalJob ≠ JsNumKind.finite
    ∧ progressBarWidthKind zeroTotalJob = JsNumKind.nan := by
  have h := progress_width_unguarded_zero_total zeroTotalJob rfl
  exact ⟨h.1, h.2.1 rfl⟩

/-- Embedded from frontend/src/pages/Analysis.tsx: the initial formData useState value;
the freshly generated uuid is a parameter. -/
def initialFormData (uuid : String) : MedicalRecord :=
  { patient_info :=
      { patient_id := uuid, name := "", age := 0, gender := "Male",
        weight := none, height := none, medical_history := some [],
        allergies := some [], current_medications := some [] },
    symptoms :=
      { primary_symptoms := [], secondary_symptoms := some [],
        symptom_duration := some "", severity := some "Moderate" },
    vital_signs := some
      { temperature := some 37, blood_pressure := some "", heart_rate := some 0,
        respiratory_rate := none, oxygen_saturation := none },
    lab_results := some [],
    additional_notes := some "" }

/-- Embedded from frontend/src/pages/Analysis.tsx handleSubmit: the partial form state
is cast to MedicalRecord and posted as-is; there is no validation step before the
mutation. -/
def handleSubmit (formData : MedicalRecord) : MedicalRecord := formData

/-- The non-empty primary-symptoms invariant the normalized record type is specified to
carry (spec section 3). -/
def primarySymptomsNonEmpty (r : MedicalRecord) : Prop :=
  r.symptoms.primary_symptoms ≠ []

/-- Claim C9: the single-record analysis form submits the form state unvalidated, so the
user input in which no symptom was ever added submits a MedicalRecord whose
primary_symptoms is empty, violating the non-empty-primary-symptoms invariant. -/
theorem submit_allows_empty_primary_symptoms (uuid : String) :
    (handleSubmit (initialFormData uuid)).symptoms.primary_symptoms = []
    ∧ ¬ primarySymptomsNonEmpty (handleSubmit (initialFormData uuid)) := by
  refine ⟨rfl, ?_⟩
  intro h
  exact h rfl

/-- Concrete check of the C9 theorem at a fixed uuid. -/
theorem submit_allows_empty_primary_symptoms_witness :
    (handleSubmit (initialFormData "uuid-1")).symptoms.primary_symptoms = [] :=
  (submit_allows_empty_primary_symptoms "uuid-1").1

/-- Embedded from frontend/src/pages/Analysis.tsx: the step state of the Analysis
page. -/
inductive AnalysisStep where
  | input
  | processing
  | result
deriving DecidableEq, Repr

/-- The Analysis page state: the current step and the retained form data. -/
structure AnalysisPageState where
  step : AnalysisStep
  formData : MedicalRecord
deriving DecidableEq, Repr

/-- Embedded from frontend/src/pages/Analysis.tsx (the Start New Analysis onClick): set
the step back to input and replace only patient_info.patient_id with a fresh uuid,
keeping every other field of the retained form state. -/
def startNewAnalysis (newUuid : String) (st : AnalysisPageState) : AnalysisPageState :=
  { step := AnalysisStep.input,
    formData := { st.formData with
      patient_info := { st.formData.patient_info with patient_id := newUuid } } }

/-- Claim C10: clicking Start New Analysis resets the step to input and replaces only
patient_info.patient_id with the fresh uuid; every other field of the retained form
state (name, age, gender, weight, height, medical history, allergies, medications,
symptoms, vital signs, lab results and notes) is unchanged. -/
theorem start_new_analysis_frame (newUuid : String) (st : AnalysisPageState) :
    (startNewAnalysis newUuid st).step = AnalysisStep.input
    ∧ (startNewAnalysis newUuid st).formData.patient_info.patient_id = newUuid
    ∧ (startNewAnalysis newUuid st).formData.patient_info.name
        = st.formData.patient_info.name
    ∧ (startNewAnalysis newUuid st).formData.patient_info.age
        = st.formData.patient_info.age
    ∧ (startNewAnalysis newUuid st).formData.patient_info.gender
        = st.formData.patient_info.gender
    ∧ (startNewAnalysis newUuid st).formData.patient_info.weight
        = st.formData.patient_info.weight
    ∧ (startNewAnalysis newUuid st).formData.patient_info.height
        = st.formData.patient_info.height
    ∧ (startNewAnalysis newUuid st).formData.patient_info.medical_history
        = st.formData.patient_info.medical_history
    ∧ (startNewAnalysis newUuid st).formData.patient_info.allergies
        = st.formData.patient_info.allergies
    ∧ (startNewAnalysis newUuid st).formData.patient_info.current_medications
        = st.formData.patient_info.current_medications
    ∧ (startNewAnalysis newUuid st).formData.symptoms = st.formData.symptoms
    ∧ (startNewAnalysis newUuid st).formData.vital_signs = st.formData.vital_signs
    ∧ (startNewAnalysis newUuid st).formData.lab_results = st.formData.lab_results
    ∧ (startNewAnalysis newUuid st).formData.additional_notes
        = st.formData.additional_notes :=
  ⟨rfl, rfl, rfl, rfl, rfl, rfl, rfl, rfl, rfl, rfl, rfl, rfl, rfl, rfl⟩

/-- Concrete check of the C10 theorem: the retained name survives Start New Analysis. -/
theorem start_new_analysis_frame_witness :
    (startNewAnalysis "uuid-2"
        { step := AnalysisStep.result,
          formData := initialFormData "uuid-1" }).formData.patient_info.name
      = (initialFormData "uuid-1").patient_info.name :=
  (start_new_analysis_frame "uuid-2"
    { step := AnalysisStep.result, formData := initialFormData "uuid-1" }).2.2.1

end Ifeakandum
